import Mathlib

/-!
Verification of the HR onboarding/exit management application
(employee lifecycle tracking, templated task checklists, task filtering,
bulk task updates, dashboard aggregates).

The repository's browser client (`frontend/src/App.js` and its revisions)
is embedded directly.  The HTTP backend (`server.py`) is not part of the
source tree: only its callers (the React client) and its test record
(`test_result.md`) are.  The backend handlers are therefore modelled from
the specification; each such definition carries a doc comment starting
with `Modelled from the spec:` naming exactly what is missing.
-/

namespace Branding

/-! ## Data model

A `Task` document as stored and exchanged by the application: JSON string
fields, millisecond-epoch timestamps (`Int`), optional dates as `Option`.
`employee_id` on a task holds the owning employee's `id`
(cf. `employees.find(e => e.id === task.employee_id)` in `App.js`). -/

structure Task where
  id : String
  employee_id : String
  title : String
  description : String
  task_type : String
  status : String
  due_date : Option Int
  completed_date : Option Int
deriving DecidableEq, Repr

structure Employee where
  id : String
  status : String
  start_date : Option Int
  exit_date : Option Int
deriving DecidableEq, Repr

/-- The persisted state: the two collections, Employee and Task. -/
structure DB where
  employees : List Employee
  tasks : List Task
deriving DecidableEq, Repr

/-- The task-status enumeration (`pending | in_progress | completed`). -/
def validTaskStatuses : List String := ["pending", "in_progress", "completed"]

/-- The employee-status enumeration. -/
def validEmployeeStatuses : List String :=
  ["onboarding", "active", "exiting", "exited", "inactive"]

/-! ## Frontend: Dashboard helpers (`frontend/src/App.js`) -/

/-- `Math.round((completed / total) * 100)` for natural `completed ≤ total`,
with exact rational semantics: `⌊100·c/t + 1/2⌋ = (200·c + t) / (2·t)`.
JS `Math.round` rounds half away from zero, which for non-negative
arguments is `⌊x + 1/2⌋`. -/
def jsRoundPct (completed total : Nat) : Nat :=
  (200 * completed + total) / (2 * total)

/-- `getProgressPercentage` from `App.js` lines 531–536 (the copies in
`temp_components.js` and `unnamed/part_002` are textually identical):
filter the employee's tasks of the given type, return 0 when there are
none, otherwise the rounded percentage of completed ones. -/
def getProgressPercentage (tasks : List Task) (employeeId taskType : String) : Nat :=
  let employeeTasks := tasks.filter fun t => t.employee_id == employeeId && t.task_type == taskType
  if employeeTasks.length = 0 then 0
  else
    let completed := (employeeTasks.filter fun t => t.status == "completed").length
    jsRoundPct completed employeeTasks.length

/-- Seven days in milliseconds (`7 * 24 * 60 * 60 * 1000`). -/
def weekMs : Int := 7 * 24 * 60 * 60 * 1000

/-- The filter predicate inside `getUpcomingReminders` (`App.js` 542–546):
a task qualifies when it has a due date, is not completed, and
`dueDate >= now && dueDate <= nextWeek`. -/
def upcomingQual (now : Int) (t : Task) : Bool :=
  match t.due_date with
  | none => false
  | some d => !(t.status == "completed") && decide (now ≤ d) && decide (d ≤ now + weekMs)

/-- Sort key for the reminder list (`new Date(a.due_date) - new Date(b.due_date)`);
every task reaching the sort has a due date. -/
def dueMs (t : Task) : Int := t.due_date.getD 0

/-- `getUpcomingReminders` from `App.js` lines 538–550: filter to
not-completed tasks due between `now` and `now + 7 days`, sort ascending
by due date (JS `Array.prototype.sort` is stable; modelled by insertion
sort, which is stable), and keep the first five (`.slice(0, 5)`). -/
def getUpcomingReminders (tasks : List Task) (now : Int) : List Task :=
  ((tasks.filter (upcomingQual now)).insertionSort fun a b => dueMs a ≤ dueMs b).take 5

/-! ## Backend model

`server.py` is not in the source tree; the handlers below are modelled
from the specification (and, for observable status codes, from the
repository's own test record `test_result.md`).  Errors are HTTP status
codes carried by `Except`; an `Except.error` leaves the database
untouched (the handler produces no new state). -/

/-- One entry of a static checklist template:
`(title, description, relative_due_offset)`. -/
structure TemplateEntry where
  title : String
  description : String
  offset_days : Nat
deriving DecidableEq, Repr

/-- Modelled from the spec: the static onboarding template catalog —
"an ordered list of (title, description, relative_due_offset) entries …
25 entries in the running system".  The catalog's textual contents are
not in the source tree (they live in the absent `server.py`); the spec
fixes only the entry count and shape, so entries carry schematic titles
and consecutive day offsets. -/
def onboardingTemplate : List TemplateEntry :=
  (List.range 25).map fun i =>
    { title := "Onboarding step " ++ toString (i + 1), description := "", offset_days := i }

/-- Modelled from the spec: the static exit template catalog (18 entries),
same provenance as `onboardingTemplate`. -/
def exitTemplate : List TemplateEntry :=
  (List.range 18).map fun i =>
    { title := "Exit step " ++ toString (i + 1), description := "", offset_days := i }

/-- One day in milliseconds. -/
def dayMs : Int := 24 * 60 * 60 * 1000

/-- Modelled from the spec: the Task Template Expander (§4.2, absent
`server.py`) — given an employee and a phase, create one pending Task per
template entry, `task_type` = the phase, linked to the employee's id;
`due_date` = anchor date + the entry's offset in days when the anchor is
present, unset otherwise. -/
def generateTasks (e : Employee) (phase : String) (anchor : Option Int) : List Task :=
  let tmpl := if phase == "onboarding" then onboardingTemplate else exitTemplate
  tmpl.map fun entry =>
    { id := e.id ++ "/" ++ phase ++ "/" ++ entry.title
      employee_id := e.id
      title := entry.title
      description := entry.description
      task_type := phase
      status := "pending"
      due_date := anchor.map fun a => a + dayMs * entry.offset_days
      completed_date := none }

/-- Modelled from the spec: the `PUT /employees/{id}` handler (§4.1, §6,
absent `server.py`) — reject a status outside the enum (400), 404 an
unknown id, otherwise set the status unconditionally (no closed state
machine), record the exit date when entering "exiting", and expand the
matching template when the new status is "onboarding" or "exiting".
Repeated transitions into the same status are not guarded against. -/
def updateEmployeeStatus (db : DB) (id : String) (newStatus : String)
    (exitDate : Option Int) : Except Nat DB :=
  if !(validEmployeeStatuses.contains newStatus) then .error 400
  else
    match db.employees.find? (fun e => e.id == id) with
    | none => .error 404
    | some e =>
      let e' : Employee :=
        { e with
          status := newStatus
          exit_date := if newStatus == "exiting" then
              (match exitDate with | some d => some d | none => e.exit_date)
            else e.exit_date }
      let newTasks :=
        if newStatus == "onboarding" then generateTasks e' "onboarding" e'.start_date
        else if newStatus == "exiting" then generateTasks e' "exit" e'.exit_date
        else []
      .ok { employees := db.employees.map fun x => if x.id == id then e' else x
            tasks := db.tasks ++ newTasks }

/-- Modelled from the spec: the `DELETE /employees/{id}` handler (§6, §9,
absent `server.py`) — 404 an unknown id, otherwise remove the employee
and, in the same operation, every task whose `employee_id` equals the
deleted employee's id (application-layer cascade delete). -/
def deleteEmployee (db : DB) (id : String) : Except Nat DB :=
  if db.employees.any (fun e => e.id == id) then
    .ok { employees := db.employees.filter fun e => !(e.id == id)
          tasks := db.tasks.filter fun t => !(t.employee_id == id) }
  else .error 404

/-- Stamp or clear `completed_date` while setting a task's status:
`completed` stamps the current time, any other status clears it. -/
def applyStatus (t : Task) (st : String) (now : Int) : Task :=
  { t with status := st
           completed_date := if st == "completed" then some now else none }

/-- Modelled from the spec: the `PUT /tasks/{id}` single-update handler
(§4.3, absent `server.py`) — a status outside the enum fails request
validation (422, the framework's validation code per the test record),
an unknown id is a 404, otherwise the task's status is set and
`completed_date` stamped or cleared by `applyStatus`. -/
def updateTask (db : DB) (taskId : String) (st : String) (now : Int) : Except Nat DB :=
  if !(validTaskStatuses.contains st) then .error 422
  else if db.tasks.any (fun t => t.id == taskId) then
    .ok { db with tasks := db.tasks.map fun t => if t.id == taskId then applyStatus t st now else t }
  else .error 404

/-- A bulk-update response: the new state and `updated_count`. -/
structure BulkResult where
  db : DB
  updated_count : Nat
deriving DecidableEq, Repr

/-- Modelled from the spec: the `PUT /tasks/bulk` handler (§4.3, absent
`server.py`) — body `{task_ids, status}`.  The framework's request
validation runs first: a status outside the enum is rejected with 422
(per the repository's test record in `test_result.md`, "invalid status
rejected with 422 validation error").  The handler then rejects an empty
id list with 400.  Otherwise one atomic multi-row write sets the status
(stamping or clearing `completed_date`) on every stored task whose id is
listed; ids naming no stored task are silently skipped, and
`updated_count` is the number of stored tasks actually modified. -/
def bulkUpdateTasks (db : DB) (taskIds : List String) (st : String) (now : Int) :
    Except Nat BulkResult :=
  if !(validTaskStatuses.contains st) then .error 422
  else if taskIds.isEmpty then .error 400
  else
    .ok { db := { db with
            tasks := db.tasks.map fun t =>
              if taskIds.contains t.id then applyStatus t st now else t }
          updated_count := (db.tasks.filter fun t => taskIds.contains t.id).length }

/-- The task-listing query parameters of `GET /tasks`
(`employee_id`, `task_type`, `status`, `search`); an absent parameter
filters nothing. -/
structure TaskFilter where
  employee_id : Option String
  task_type : Option String
  status : Option String
  search : Option String
deriving DecidableEq, Repr

/-- An optional exact-match query parameter: absent matches everything. -/
def optMatch (param : Option String) (v : String) : Bool :=
  match param with
  | none => true
  | some s => v == s

/-- `needle` occurs as a contiguous prefix of `hay`. -/
def charsStart : List Char → List Char → Bool
  | [], _ => true
  | _ :: _, [] => false
  | a :: n, b :: h => a == b && charsStart n h

/-- `needle` occurs contiguously somewhere in `hay`. -/
def charsContain : List Char → List Char → Bool
  | n, [] => n.isEmpty
  | n, b :: h => charsStart n (b :: h) || charsContain n h

/-- Substring test on strings. -/
def strContains (hay needle : String) : Bool :=
  charsContain needle.toList hay.toList

/-- Modelled from the spec: the filter predicate of the `GET /tasks`
handler (§4.3, absent `server.py`) — employee_id exact match, task_type,
status, and free-text substring match on title, independent and
conjunctive (AND) when combined. -/
def taskMatches (f : TaskFilter) (t : Task) : Bool :=
  optMatch f.employee_id t.employee_id &&
  optMatch f.task_type t.task_type &&
  optMatch f.status t.status &&
  (match f.search with
   | none => true
   | some s => strContains t.title s)

/-- Modelled from the spec: the `GET /tasks` listing (§4.3, §6, absent
`server.py`) — return the stored tasks satisfying every supplied filter. -/
def listTasks (db : DB) (f : TaskFilter) : List Task :=
  db.tasks.filter (taskMatches f)

/-! ## Concrete sample state (used by witnesses and counterexamples) -/

/-- A stored pending onboarding task of employee `e1`. -/
def tA : Task :=
  { id := "a", employee_id := "e1", title := "Task A", description := ""
    task_type := "onboarding", status := "pending", due_date := some 100
    completed_date := none }

/-- A stored in-progress onboarding task of employee `e1` that (spuriously)
carries a completion date, so that clearing it is observable. -/
def tB : Task :=
  { id := "b", employee_id := "e1", title := "Task B", description := ""
    task_type := "onboarding", status := "in_progress", due_date := some 200
    completed_date := some 5 }

/-- A sample employee. -/
def emp1 : Employee :=
  { id := "e1", status := "active", start_date := some 0, exit_date := none }

/-- A sample database: one employee and the two tasks above. -/
def sampleDb : DB := { employees := [emp1], tasks := [tA, tB] }

/-- A not-completed task whose due date lies one day in the past
relative to instant 0: overdue at `now = 0`. -/
def overdueTask : Task :=
  { id := "t", employee_id := "e1", title := "Old task", description := ""
    task_type := "onboarding", status := "pending", due_date := some (-86400000)
    completed_date := none }

/-- Number of stored tasks belonging to a given employee. -/
def tasksFor (db : DB) (id : String) : Nat :=
  (db.tasks.filter fun t => t.employee_id == id).length

/-- The referential invariant of the store: every stored task belongs to
a stored employee (spec §3: a task "belongs to exactly one employee";
`task.employee_id` is an application-layer foreign key). -/
def tasksOwned (db : DB) : Prop :=
  ∀ t ∈ db.tasks, ∃ e ∈ db.employees, e.id = t.employee_id

/-! ## Helper lemmas -/

/-- Rounding a ratio of `c ≤ n` by `jsRoundPct` never exceeds 100 %. -/
theorem jsRoundPct_le_hundred {c n : Nat} (hc : c ≤ n) (hn : 0 < n) :
    jsRoundPct c n ≤ 100 := by
  unfold jsRoundPct
  have h2n : 0 < 2 * n := by omega
  have h := (Nat.div_lt_iff_lt_mul h2n).mpr (show 200 * c + n < 101 * (2 * n) by omega)
  omega

/-- Every task produced by the template expander carries the phase as its
`task_type`, is linked to the employee, starts pending with no
completion date. -/
theorem generateTasks_mem (e : Employee) (ph : String) (anchor : Option Int) (t : Task)
    (ht : t ∈ generateTasks e ph anchor) :
    t.task_type = ph ∧ t.employee_id = e.id ∧ t.status = "pending" ∧
    t.completed_date = none := by
  simp only [generateTasks] at ht
  rcases List.mem_map.mp ht with ⟨entry, -, rfl⟩
  exact ⟨rfl, rfl, rfl, rfl⟩

/-- The onboarding expansion always has exactly 25 tasks. -/
theorem generateTasks_onboarding_length (e : Employee) (a : Option Int) :
    (generateTasks e "onboarding" a).length = 25 := by
  simp [generateTasks, onboardingTemplate]

/-- The exit expansion always has exactly 18 tasks. -/
theorem generateTasks_exit_length (e : Employee) (a : Option Int) :
    (generateTasks e "exit" a).length = 18 := by
  simp [generateTasks, exitTemplate]

/-- Closed form of a successful `PUT /employees/{id}` to "onboarding". -/
theorem updateEmployeeStatus_onboarding_eq (db : DB) (id : String) (d : Option Int)
    (e : Employee) (heq : db.employees.find? (fun x => x.id == id) = some e) :
    updateEmployeeStatus db id "onboarding" d =
      .ok { employees := db.employees.map fun x =>
              if x.id == id then { e with status := "onboarding" } else x
            tasks := db.tasks ++
              generateTasks { e with status := "onboarding" } "onboarding" e.start_date } := by
  unfold updateEmployeeStatus
  rw [heq]
  rfl

/-- Closed form of a successful `PUT /employees/{id}` to "exiting". -/
theorem updateEmployeeStatus_exiting_eq (db : DB) (id : String) (d : Option Int)
    (e : Employee) (heq : db.employees.find? (fun x => x.id == id) = some e) :
    updateEmployeeStatus db id "exiting" d =
      .ok { employees := db.employees.map fun x =>
              if x.id == id then
                { e with status := "exiting"
                         exit_date := match d with | some x => some x | none => e.exit_date }
              else x
            tasks := db.tasks ++
              generateTasks
                { e with status := "exiting"
                         exit_date := match d with | some x => some x | none => e.exit_date }
                "exit" (match d with | some x => some x | none => e.exit_date) } := by
  unfold updateEmployeeStatus
  rw [heq]
  rfl

/-- Tasks the expander generates for an employee with id `id` are all
counted by the `employee_id = id` filter. -/
theorem filter_generateTasks_eq_self (e : Employee) (ph : String) (a : Option Int)
    (id : String) (hid : e.id = id) :
    (generateTasks e ph a).filter (fun t => t.employee_id == id) = generateTasks e ph a := by
  apply List.filter_eq_self.mpr
  intro t ht
  obtain ⟨-, h2, -, -⟩ := generateTasks_mem e ph a t ht
  simp [h2, hid]

/-- An optional exact-match parameter holds exactly when every supplied
value agrees. -/
theorem optMatch_iff (p : Option String) (v : String) :
    optMatch p v = true ↔ ∀ s, p = some s → v = s := by
  cases p <;> simp [optMatch]

/-- The optional substring parameter holds exactly when every supplied
needle occurs in the title. -/
theorem searchMatch_iff (p : Option String) (title : String) :
    (match p with
     | none => true
     | some s => strContains title s) = true ↔
      ∀ s, p = some s → strContains title s = true := by
  cases p <;> simp

/-- The supplied filters of the `GET /tasks` query hold of a task exactly
when their conjunction does, each one independently. -/
theorem taskMatches_iff (f : TaskFilter) (t : Task) :
    taskMatches f t = true ↔
      (∀ e, f.employee_id = some e → t.employee_id = e) ∧
      (∀ ty, f.task_type = some ty → t.task_type = ty) ∧
      (∀ st, f.status = some st → t.status = st) ∧
      (∀ s, f.search = some s → strContains t.title s = true) := by
  unfold taskMatches
  rw [Bool.and_eq_true, Bool.and_eq_true, Bool.and_eq_true,
    optMatch_iff, optMatch_iff, optMatch_iff, searchMatch_iff]
  tauto

/-- Replacing the employee found at `eid` by one carrying the same id
keeps every employee id present in the collection. -/
theorem map_update_exists_id (emps : List Employee) (eid : String) (E : Employee)
    (hEid : E.id = eid) (tid : String) (e₀ : Employee) (he₀ : e₀ ∈ emps)
    (hid₀ : e₀.id = tid) :
    ∃ e₂ ∈ emps.map (fun x => if x.id == eid then E else x), e₂.id = tid := by
  refine ⟨if e₀.id == eid then E else e₀, List.mem_map_of_mem _ he₀, ?_⟩
  by_cases h : (e₀.id == eid) = true
  · rw [if_pos h, hEid, ← beq_iff_eq.mp h]
    exact hid₀
  · rw [if_neg h]
    exact hid₀

/-- A successful employee status update preserves the ownership
invariant: the employee map keeps every id, and freshly generated tasks
point at the updated employee. -/
theorem updateEmployeeStatus_preserves_owned (db : DB) (eid st : String) (d : Option Int)
    (db' : DB) (hinv : tasksOwned db) (h : updateEmployeeStatus db eid st d = .ok db') :
    tasksOwned db' := by
  unfold updateEmployeeStatus at h
  split at h
  · exact absurd h (by simp)
  split at h
  · exact absurd h (by simp)
  rename_i e heq
  have hid : e.id = eid := by simpa using List.find?_some heq
  have hmeme : e ∈ db.employees := List.mem_of_find?_eq_some heq
  simp only [Except.ok.injEq] at h
  subst h
  intro t ht
  simp only [List.mem_append] at ht
  rcases ht with ht | ht
  · obtain ⟨e₀, he₀, hid₀⟩ := hinv t ht
    refine map_update_exists_id db.employees eid _ ?_ t.employee_id e₀ he₀ hid₀
    exact hid
  · by_cases h1 : (st == "onboarding") = true
    · rw [if_pos h1] at ht
      obtain ⟨-, h2, -, -⟩ := generateTasks_mem _ _ _ t ht
      refine map_update_exists_id db.employees eid _ ?_ t.employee_id e hmeme h2.symm
      exact hid
    · rw [if_neg h1] at ht
      by_cases h2 : (st == "exiting") = true
      · rw [if_pos h2] at ht
        obtain ⟨-, h3, -, -⟩ := generateTasks_mem _ _ _ t ht
        refine map_update_exists_id db.employees eid _ ?_ t.employee_id e hmeme h3.symm
        exact hid
      · rw [if_neg h2] at ht
        exact absurd ht (List.not_mem_nil t)

/-- A successful single task update preserves the ownership invariant:
it touches neither the employee collection nor any task's owner. -/
theorem updateTask_preserves_owned (db : DB) (tid st : String) (now : Int) (db' : DB)
    (hinv : tasksOwned db) (h : updateTask db tid st now = .ok db') :
    tasksOwned db' := by
  unfold updateTask at h
  split at h
  · exact absurd h (by simp)
  split at h
  · simp only [Except.ok.injEq] at h
    subst h
    intro t ht
    rcases List.mem_map.mp ht with ⟨s, hs, rfl⟩
    obtain ⟨e₀, he₀, hid₀⟩ := hinv s hs
    refine ⟨e₀, he₀, ?_⟩
    by_cases hcase : (s.id == tid) = true
    · rw [if_pos hcase]
      exact hid₀
    · rw [if_neg hcase]
      exact hid₀
  · exact absurd h (by simp)

/-- A successful bulk task update preserves the ownership invariant for
the same reason as the single update. -/
theorem bulkUpdateTasks_preserves_owned (db : DB) (ids : List String) (st : String)
    (now : Int) (r : BulkResult) (hinv : tasksOwned db)
    (h : bulkUpdateTasks db ids st now = .ok r) :
    tasksOwned r.db := by
  unfold bulkUpdateTasks at h
  split at h
  · exact absurd h (by simp)
  split at h
  · exact absurd h (by simp)
  simp only [Except.ok.injEq] at h
  subst h
  intro t ht
  rcases List.mem_map.mp ht with ⟨s, hs, rfl⟩
  obtain ⟨e₀, he₀, hid₀⟩ := hinv s hs
  refine ⟨e₀, he₀, ?_⟩
  by_cases hcase : ids.contains s.id = true
  · rw [if_pos hcase]
    exact hid₀
  · rw [if_neg hcase]
    exact hid₀

/-! ## Claims -/

/-- C10: the checklist progress computation (`getProgressPercentage`,
`App.js` 531–536 and its two textually identical copies) is total and
bounded — with no matching tasks it returns 0 (the division is guarded by
the emptiness check, never dividing by zero), and it always returns a
natural number at most 100. -/
theorem getProgressPercentage_total_bounded (tasks : List Task) (employeeId taskType : String) :
    ((tasks.filter fun t => t.employee_id == employeeId && t.task_type == taskType) = [] →
      getProgressPercentage tasks employeeId taskType = 0) ∧
    getProgressPercentage tasks employeeId taskType ≤ 100 := by
  constructor
  · intro h
    simp [getProgressPercentage, h]
  · by_cases h :
      (tasks.filter fun t => t.employee_id == employeeId && t.task_type == taskType).length = 0
    · simp [getProgressPercentage, h]
    · have hc := List.length_filter_le (fun t => t.status == "completed")
        (tasks.filter fun t => t.employee_id == employeeId && t.task_type == taskType)
      simp only [getProgressPercentage, h, if_false]
      exact jsRoundPct_le_hundred hc (Nat.pos_of_ne_zero h)

/-- C10 witness: progress is 0 for an employee with no tasks, and at most
100 on the sample data. -/
theorem getProgressPercentage_total_bounded_witness :
    getProgressPercentage [tA, tB] "nobody" "onboarding" = 0 ∧
    getProgressPercentage [tA, tB] "e1" "onboarding" ≤ 100 :=
  ⟨(getProgressPercentage_total_bounded [tA, tB] "nobody" "onboarding").1 (by decide),
   (getProgressPercentage_total_bounded [tA, tB] "e1" "onboarding").2⟩

/-- C9 counterexample: `getUpcomingReminders` (`App.js` 538–550) does NOT
include overdue tasks.  `overdueTask` is not completed and its due date
is one day in the past relative to `now = 0`, yet the computed
upcoming-tasks aggregate is empty — the claim says it should contain the
task. -/
theorem getUpcomingReminders_overdue_excluded_cex :
    overdueTask.status ≠ "completed" ∧
    overdueTask.due_date = some (-86400000) ∧ (-86400000 : Int) < 0 ∧
    overdueTask ∉ getUpcomingReminders [overdueTask] 0 := by decide

/-- C9 (amended): when at most five tasks qualify, the dashboard's
upcoming-reminders aggregate contains exactly the tasks that have a due
date, are not completed, and are due between the current instant and
seven days ahead — tasks already overdue (due before `now`) are
excluded; the list is due-date sorted and truncated to five entries. -/
theorem getUpcomingReminders_exact (tasks : List Task) (now : Int) (t : Task)
    (h5 : (tasks.filter (upcomingQual now)).length ≤ 5) :
    t ∈ getUpcomingReminders tasks now ↔ t ∈ tasks ∧ upcomingQual now t = true := by
  unfold getUpcomingReminders
  have hperm := List.perm_insertionSort (fun a b => dueMs a ≤ dueMs b)
    (tasks.filter (upcomingQual now))
  rw [List.take_of_length_le (by rw [hperm.length_eq]; exact h5)]
  rw [hperm.mem_iff, List.mem_filter]

/-- C9 witness: on the sample data at instant 0 both stored tasks are due
within the week and not completed, and indeed appear in the aggregate. -/
theorem getUpcomingReminders_exact_witness :
    tA ∈ getUpcomingReminders [tA, tB] 0 ∧ tB ∈ getUpcomingReminders [tA, tB] 0 :=
  ⟨(getUpcomingReminders_exact [tA, tB] 0 tA (by decide)).mpr (by decide),
   (getUpcomingReminders_exact [tA, tB] 0 tB (by decide)).mpr (by decide)⟩

/-- C8: the `GET /tasks` filters (employee_id exact match, task_type,
status, free-text substring match on title) combine conjunctively — a
task is returned exactly when it satisfies every supplied filter
independently; in particular filtering by an employee id together with
`task_type = "onboarding"` returns exactly that employee's onboarding
tasks, regardless of their status. -/
theorem listTasks_conjunctive (db : DB) (f : TaskFilter) (t : Task) (eid : String) :
    (t ∈ listTasks db f ↔ t ∈ db.tasks ∧
      (∀ e, f.employee_id = some e → t.employee_id = e) ∧
      (∀ ty, f.task_type = some ty → t.task_type = ty) ∧
      (∀ st, f.status = some st → t.status = st) ∧
      (∀ s, f.search = some s → strContains t.title s = true)) ∧
    (t ∈ listTasks db { employee_id := some eid, task_type := some "onboarding"
                        status := none, search := none } ↔
      t ∈ db.tasks ∧ t.employee_id = eid ∧ t.task_type = "onboarding") := by
  constructor
  · rw [listTasks, List.mem_filter, taskMatches_iff]
  · rw [listTasks, List.mem_filter, taskMatches_iff]
    simp

/-- C1: a bulk task update (`PUT /tasks/bulk`) with a non-empty id list
and any valid target status succeeds in one state-passing step: ids
naming no stored task are silently skipped rather than causing an error,
every listed stored task receives the target status — with
`completed_date` stamped when the target is "completed" and cleared for
any other target — unlisted tasks are untouched, and the response's
`updated_count` is the number of stored tasks actually modified, which
may be less than the number of ids submitted. -/
theorem bulkUpdate_skips_unknown_ids (db : DB) (taskIds : List String) (st : String)
    (now : Int) (hst : validTaskStatuses.contains st = true) (hne : taskIds ≠ []) :
    ∃ db' cnt, bulkUpdateTasks db taskIds st now = .ok ⟨db', cnt⟩ ∧
      cnt = (db.tasks.filter fun t => taskIds.contains t.id).length ∧
      (∀ t ∈ db'.tasks, taskIds.contains t.id = true →
        t.status = st ∧ (st = "completed" → t.completed_date = some now) ∧
        (st ≠ "completed" → t.completed_date = none)) ∧
      (∀ t ∈ db'.tasks, taskIds.contains t.id = false → t ∈ db.tasks) := by
  have hempty : taskIds.isEmpty = false := by
    cases taskIds with
    | nil => exact absurd rfl hne
    | cons a l => rfl
  refine ⟨{ db with tasks := db.tasks.map fun t =>
              if taskIds.contains t.id then applyStatus t st now else t },
          (db.tasks.filter fun t => taskIds.contains t.id).length, ?_, rfl, ?_, ?_⟩
  · unfold bulkUpdateTasks
    rw [if_neg (by simpa using hst), if_neg (by simp [hempty])]
  · intro t ht hc
    rcases List.mem_map.mp ht with ⟨s, -, rfl⟩
    by_cases h : taskIds.contains s.id = true
    · simp only [h, if_true]
      refine ⟨rfl, ?_, ?_⟩
      · intro hcst
        simp [applyStatus, hcst]
      · intro hcst
        simp [applyStatus, beq_eq_false_iff_ne.mpr hcst]
    · rw [if_neg h] at hc ⊢
      exact absurd hc h
  · intro t ht hc
    rcases List.mem_map.mp ht with ⟨s, hs, rfl⟩
    have hsid : (if taskIds.contains s.id = true then applyStatus s st now else s).id
        = s.id := by
      by_cases h : taskIds.contains s.id = true
      · rw [if_pos h]
        rfl
      · rw [if_neg h]
    rw [hsid] at hc
    rw [if_neg (by rw [hc]; exact Bool.false_ne_true)]
    exact hs

/-- C1 witness: bulk-updating `[a, b, nonexistent]` to "completed" on the
sample database returns `updated_count = 2`, and both stored tasks end
completed with `completed_date = 777`; bulk-updating the same ids to
"pending" likewise skips the unknown id and counts 2. -/
theorem bulkUpdate_skips_unknown_ids_witness :
    (∃ db' cnt,
      bulkUpdateTasks sampleDb ["a", "b", "nonexistent"] "completed" 777 = .ok ⟨db', cnt⟩ ∧
      cnt = 2 ∧
      ∀ t ∈ db'.tasks, t.status = "completed" ∧ t.completed_date = some 777) ∧
    (∃ db' cnt,
      bulkUpdateTasks sampleDb ["a", "b", "nonexistent"] "pending" 777 = .ok ⟨db', cnt⟩ ∧
      cnt = 2) := by
  constructor
  · obtain ⟨db', cnt, hok, hcnt, hupd, -⟩ :=
      bulkUpdate_skips_unknown_ids sampleDb ["a", "b", "nonexistent"] "completed" 777
        (by decide) (by decide)
    refine ⟨db', cnt, hok, by rw [hcnt]; decide, ?_⟩
    intro t ht
    have heval : bulkUpdateTasks sampleDb ["a", "b", "nonexistent"] "completed" 777 =
        .ok ⟨{ employees := [emp1]
               tasks := [applyStatus tA "completed" 777, applyStatus tB "completed" 777] },
             2⟩ := rfl
    rw [heval] at hok
    simp only [Except.ok.injEq, BulkResult.mk.injEq] at hok
    obtain ⟨hdb, -⟩ := hok
    have hcontains : (["a", "b", "nonexistent"] : List String).contains t.id = true := by
      rw [← hdb] at ht
      simp only [List.mem_cons, List.not_mem_nil, or_false] at ht
      rcases ht with rfl | rfl
      · decide
      · decide
    obtain ⟨h1, h2, -⟩ := hupd t ht hcontains
    exact ⟨h1, h2 rfl⟩
  · obtain ⟨db', cnt, hok, hcnt, -, -⟩ :=
      bulkUpdate_skips_unknown_ids sampleDb ["a", "b", "nonexistent"] "pending" 777
        (by decide) (by decide)
    exact ⟨db', cnt, hok, by rw [hcnt]; decide⟩

/-- C3: a single task status update (`PUT /tasks/{id}`) with a valid
status on an existing task succeeds, sets the task's status, stamps
`completed_date` with the current time exactly when the new status is
"completed", and clears it for any other status — afterwards the updated
task's `completed_date` is non-null exactly when its status is
"completed". -/
theorem updateTask_completed_date (db : DB) (taskId st : String) (now : Int)
    (hst : validTaskStatuses.contains st = true)
    (hex : db.tasks.any (fun t => t.id == taskId) = true) :
    ∃ db', updateTask db taskId st now = .ok db' ∧
      ∀ t ∈ db'.tasks, t.id = taskId →
        t.status = st ∧ (t.completed_date ≠ none ↔ st = "completed") ∧
        (st = "completed" → t.completed_date = some now) := by
  refine ⟨{ db with tasks := db.tasks.map fun t =>
              if t.id == taskId then applyStatus t st now else t }, ?_, ?_⟩
  · unfold updateTask
    rw [if_neg (by simpa using hst), if_pos hex]
  · intro t ht htid
    rcases List.mem_map.mp ht with ⟨s, -, rfl⟩
    by_cases h : (s.id == taskId) = true
    · simp only [h, if_true] at htid ⊢
      refine ⟨rfl, ?_, ?_⟩
      · by_cases hc : st = "completed"
        · simp [applyStatus, hc]
        · simp [applyStatus, beq_eq_false_iff_ne.mpr hc, hc]
      · intro hc
        simp [applyStatus, hc]
    · rw [if_neg h] at htid
      exact absurd (beq_iff_eq.mpr htid) h

/-- C3 witness: setting sample task `b` (which carried a completion date)
to "pending" clears its `completed_date`. -/
theorem updateTask_completed_date_witness :
    ∃ db', updateTask sampleDb "b" "pending" 0 = .ok db' ∧
      ∀ t ∈ db'.tasks, t.id = "b" →
        t.status = "pending" ∧ (t.completed_date ≠ none ↔ ("pending" : String) = "completed") ∧
        (("pending" : String) = "completed" → t.completed_date = some 0) :=
  updateTask_completed_date sampleDb "b" "pending" 0 (by decide) (by decide)

/-- C4 counterexample: a bulk update with an invalid status value is
rejected with the framework's request-validation code 422, not with the
claimed 400 — evaluated on the sample database with the non-enum status
"done". -/
theorem bulkUpdate_invalid_status_code_cex :
    bulkUpdateTasks sampleDb ["a"] "done" 0 = .error 422 ∧ (422 : Nat) ≠ 400 :=
  ⟨rfl, by decide⟩

/-- C4 (amended): a bulk update with an empty id list and a valid status
is rejected with 400, and one whose status is not a valid task-status
enum value is rejected with the request-validation code 422; in either
case the handler returns an error and produces no new database state, so
no task is modified. -/
theorem bulkUpdate_validation (db : DB) (taskIds : List String) (st : String) (now : Int) :
    (validTaskStatuses.contains st = true → taskIds = [] →
      bulkUpdateTasks db taskIds st now = .error 400) ∧
    (validTaskStatuses.contains st = false →
      bulkUpdateTasks db taskIds st now = .error 422) := by
  constructor
  · intro hv he
    subst he
    unfold bulkUpdateTasks
    rw [if_neg (by simpa using hv)]
    rfl
  · intro hv
    unfold bulkUpdateTasks
    rw [if_pos (by simpa using hv)]

/-- C4 witness: on the sample database, the empty id list yields 400 and
the invalid status "done" yields 422. -/
theorem bulkUpdate_validation_witness :
    bulkUpdateTasks sampleDb [] "completed" 0 = .error 400 ∧
    bulkUpdateTasks sampleDb ["a"] "done" 0 = .error 422 :=
  ⟨(bulkUpdate_validation sampleDb [] "completed" 0).1 (by decide) rfl,
   (bulkUpdate_validation sampleDb ["a"] "done" 0).2 (by decide)⟩

/-- C2: setting an existing employee's status to "onboarding" appends
exactly 25 new Task records, each with `task_type = "onboarding"` and
each linked to that employee's id; setting it to "exiting" appends
exactly 18 new Task records with `task_type = "exit"` — the fixed entry
counts of the static onboarding and exit template catalogs. -/
theorem statusTransition_generates_template_tasks (db : DB) (id : String)
    (exitDate : Option Int)
    (hex : (db.employees.find? fun x => x.id == id).isSome = true) :
    (∃ db' batch, updateEmployeeStatus db id "onboarding" exitDate = .ok db' ∧
      db'.tasks = db.tasks ++ batch ∧ batch.length = 25 ∧
      ∀ t ∈ batch, t.task_type = "onboarding" ∧ t.employee_id = id) ∧
    (∃ db' batch, updateEmployeeStatus db id "exiting" exitDate = .ok db' ∧
      db'.tasks = db.tasks ++ batch ∧ batch.length = 18 ∧
      ∀ t ∈ batch, t.task_type = "exit" ∧ t.employee_id = id) := by
  obtain ⟨e, heq⟩ := Option.isSome_iff_exists.mp hex
  have hid : e.id = id := by simpa using List.find?_some heq
  constructor
  · refine ⟨_, _, updateEmployeeStatus_onboarding_eq db id exitDate e heq, rfl,
      generateTasks_onboarding_length _ _, ?_⟩
    intro t ht
    obtain ⟨h1, h2, -, -⟩ := generateTasks_mem _ _ _ t ht
    exact ⟨h1, by rw [h2]; exact hid⟩
  · refine ⟨_, _, updateEmployeeStatus_exiting_eq db id exitDate e heq, rfl,
      generateTasks_exit_length _ _, ?_⟩
    intro t ht
    obtain ⟨h1, h2, -, -⟩ := generateTasks_mem _ _ _ t ht
    exact ⟨h1, by rw [h2]; exact hid⟩

/-- C2 witness: on the sample database, moving employee `e1` to
"onboarding" appends 25 onboarding tasks for `e1`, and moving it to
"exiting" appends 18 exit tasks. -/
theorem statusTransition_generates_template_tasks_witness :
    (∃ db' batch, updateEmployeeStatus sampleDb "e1" "onboarding" none = .ok db' ∧
      db'.tasks = sampleDb.tasks ++ batch ∧ batch.length = 25 ∧
      ∀ t ∈ batch, t.task_type = "onboarding" ∧ t.employee_id = "e1") ∧
    (∃ db' batch, updateEmployeeStatus sampleDb "e1" "exiting" none = .ok db' ∧
      db'.tasks = sampleDb.tasks ++ batch ∧ batch.length = 18 ∧
      ∀ t ∈ batch, t.task_type = "exit" ∧ t.employee_id = "e1") :=
  statusTransition_generates_template_tasks sampleDb "e1" none (by decide)

/-- C5: deleting an existing employee (`DELETE /employees/{id}`) succeeds
and afterwards no Task record whose `employee_id` equals the deleted
employee's id remains — the owned task set is cascade-deleted with its
employee, the surviving tasks are drawn from the previous task set, and
the invariant that every stored task belongs to a stored employee
(`tasksOwned`) is preserved: by the delete itself, and by every other
mutating operation of the model — employee status update, single task
update, and bulk task update. -/
theorem deleteEmployee_cascades (db : DB) (id : String)
    (hex : db.employees.any (fun e => e.id == id) = true)
    (hinv : tasksOwned db) :
    (∃ db', deleteEmployee db id = .ok db' ∧
      (∀ t ∈ db'.tasks, t.employee_id ≠ id) ∧
      (∀ e ∈ db'.employees, e.id ≠ id) ∧
      (∀ t ∈ db'.tasks, t ∈ db.tasks) ∧
      tasksOwned db') ∧
    (∀ eid st d db', updateEmployeeStatus db eid st d = .ok db' → tasksOwned db') ∧
    (∀ tid st now db', updateTask db tid st now = .ok db' → tasksOwned db') ∧
    (∀ ids st now r, bulkUpdateTasks db ids st now = .ok r → tasksOwned r.db) := by
  refine ⟨?_, ?_, ?_, ?_⟩
  · refine ⟨{ employees := db.employees.filter fun e => !(e.id == id)
              tasks := db.tasks.filter fun t => !(t.employee_id == id) }, ?_, ?_, ?_, ?_, ?_⟩
    · unfold deleteEmployee
      rw [if_pos hex]
    · intro t ht
      have h := (List.mem_filter.mp ht).2
      simpa using h
    · intro e he
      have h := (List.mem_filter.mp he).2
      simpa using h
    · intro t ht
      exact (List.mem_filter.mp ht).1
    · intro t ht
      obtain ⟨htm, htne⟩ := List.mem_filter.mp ht
      obtain ⟨e₀, he₀, hid₀⟩ := hinv t htm
      refine ⟨e₀, List.mem_filter.mpr ⟨he₀, ?_⟩, hid₀⟩
      show (!(e₀.id == id)) = true
      rw [hid₀]
      exact htne
  · intro eid st d db' h
    exact updateEmployeeStatus_preserves_owned db eid st d db' hinv h
  · intro tid st now db' h
    exact updateTask_preserves_owned db tid st now db' hinv h
  · intro ids st now r h
    exact bulkUpdateTasks_preserves_owned db ids st now r hinv h

/-- C5 witness: deleting employee `e1` from the sample database (whose
task set is fully owned) removes both of its tasks; no task with
`employee_id = "e1"` survives and the ownership invariant carries over
to every operation's result. -/
theorem deleteEmployee_cascades_witness :
    (∃ db', deleteEmployee sampleDb "e1" = .ok db' ∧
      (∀ t ∈ db'.tasks, t.employee_id ≠ "e1") ∧
      (∀ e ∈ db'.employees, e.id ≠ "e1") ∧
      (∀ t ∈ db'.tasks, t ∈ sampleDb.tasks) ∧
      tasksOwned db') ∧
    (∀ eid st d db', updateEmployeeStatus sampleDb eid st d = .ok db' → tasksOwned db') ∧
    (∀ tid st now db', updateTask sampleDb tid st now = .ok db' → tasksOwned db') ∧
    (∀ ids st now r, bulkUpdateTasks sampleDb ids st now = .ok r → tasksOwned r.db) :=
  deleteEmployee_cascades sampleDb "e1" (by decide) (by unfold tasksOwned; decide)

/-- C6: for every existing employee — whatever its current status — a
`PUT /employees/{id}` request setting any target status from the valid
enum is accepted: transitions are not restricted to a closed state
machine; the onboarding→active→exiting→exited flow is only a UI
affordance. -/
theorem employeeStatus_any_transition_accepted (db : DB) (e : Employee) (target : String)
    (exitDate : Option Int) (he : e ∈ db.employees)
    (hvt : validEmployeeStatuses.contains target = true) :
    ∃ db', updateEmployeeStatus db e.id target exitDate = .ok db' := by
  have hfs : (db.employees.find? fun x => x.id == e.id).isSome = true :=
    List.find?_isSome.mpr ⟨e, he, beq_self_eq_true e.id⟩
  obtain ⟨e₂, heq⟩ := Option.isSome_iff_exists.mp hfs
  unfold updateEmployeeStatus
  rw [if_neg (by simpa using hvt), heq]
  exact ⟨_, rfl⟩

/-- C6 witness: the sample employee (currently "active") can be set
directly to each of the five statuses, including backwards and
self-directed moves the UI never offers. -/
theorem employeeStatus_any_transition_accepted_witness :
    (∃ db', updateEmployeeStatus sampleDb emp1.id "onboarding" none = .ok db') ∧
    (∃ db', updateEmployeeStatus sampleDb emp1.id "active" none = .ok db') ∧
    (∃ db', updateEmployeeStatus sampleDb emp1.id "exiting" (some 9) = .ok db') ∧
    (∃ db', updateEmployeeStatus sampleDb emp1.id "exited" none = .ok db') ∧
    (∃ db', updateEmployeeStatus sampleDb emp1.id "inactive" none = .ok db') :=
  ⟨employeeStatus_any_transition_accepted sampleDb emp1 "onboarding" none (by decide) (by decide),
   employeeStatus_any_transition_accepted sampleDb emp1 "active" none (by decide) (by decide),
   employeeStatus_any_transition_accepted sampleDb emp1 "exiting" (some 9) (by decide) (by decide),
   employeeStatus_any_transition_accepted sampleDb emp1 "exited" none (by decide) (by decide),
   employeeStatus_any_transition_accepted sampleDb emp1 "inactive" none (by decide) (by decide)⟩

/-- C7: task generation on a status transition is not idempotent —
transitioning an existing employee into "onboarding" and then repeating
the very same transition (an onboarding→onboarding self-transition)
generates a second full 25-task template batch, leaving the employee
with two duplicate task sets (+50 tasks in total). -/
theorem repeated_transition_duplicates_tasks (db : DB) (id : String) (d1 d2 : Option Int)
    (hex : (db.employees.find? fun x => x.id == id).isSome = true) :
    ∃ db₁ db₂, updateEmployeeStatus db id "onboarding" d1 = .ok db₁ ∧
      updateEmployeeStatus db₁ id "onboarding" d2 = .ok db₂ ∧
      tasksFor db₁ id = tasksFor db id + 25 ∧
      tasksFor db₂ id = tasksFor db id + 50 := by
  obtain ⟨e, heq⟩ := Option.isSome_iff_exists.mp hex
  have hid : e.id = id := by simpa using List.find?_some heq
  have h1 := updateEmployeeStatus_onboarding_eq db id d1 e heq
  set e' : Employee := { e with status := "onboarding" } with he'def
  set db₁ : DB :=
    { employees := db.employees.map fun x => if x.id == id then e' else x
      tasks := db.tasks ++ generateTasks e' "onboarding" e.start_date } with hdb₁def
  have hmem : e ∈ db.employees := List.mem_of_find?_eq_some heq
  have he'mem : e' ∈ db₁.employees := by
    rw [hdb₁def]
    exact List.mem_map.mpr ⟨e, hmem, by simp [hid]⟩
  have hex₁ : (db₁.employees.find? fun x => x.id == id).isSome = true :=
    List.find?_isSome.mpr ⟨ e', he'mem, by simp [ he'def, hid]⟩
  obtain ⟨e₂, heq₂⟩ := Option.isSome_iff_exists.mp hex₁
  have hid₂ : e₂.id = id := by simpa using List.find?_some heq₂
  have h2 := updateEmployeeStatus_onboarding_eq db₁ id d2 e₂ heq₂
  have hc1 : tasksFor db₁ id = tasksFor db id + 25 := by
    rw [hdb₁def]
    unfold tasksFor
    simp only [List.filter_append, List.length_append]
    rw [filter_generateTasks_eq_self e' "onboarding" e.start_date id hid,
      generateTasks_onboarding_length]
  refine ⟨db₁, _, h1, h2, hc1, ?_⟩
  unfold tasksFor
  simp only [List.filter_append, List.length_append]
  rw [filter_generateTasks_eq_self e' "onboarding" e.start_date id hid,
    filter_generateTasks_eq_self { e₂ with status := "onboarding" } "onboarding"
      e₂.start_date id hid₂,
    generateTasks_onboarding_length, generateTasks_onboarding_length]

/-- C7 witness: on the sample database, transitioning employee `e1` into
"onboarding" twice yields 25 and then 50 extra tasks for `e1`. -/
theorem repeated_transition_duplicates_tasks_witness :
    ∃ db₁ db₂, updateEmployeeStatus sampleDb "e1" "onboarding" none = .ok db₁ ∧
      updateEmployeeStatus db₁ "e1" "onboarding" none = .ok db₂ ∧
      tasksFor db₁ "e1" = tasksFor sampleDb "e1" + 25 ∧
      tasksFor db₂ "e1" = tasksFor sampleDb "e1" + 50 :=
  repeated_transition_duplicates_tasks sampleDb "e1" none none (by decide)

end Branding
